import Mathlib

/-!
# Verification of the Market-data-pipeline storage and cleaning layers

Shallow embedding of `src/pipeline/store.py`, `src/pipeline/clean.py` and
`src/sources/registry.py`.  SQLite tables are modelled as Lean lists of
typed rows (REAL columns as `Rat`, TEXT columns as `String`; SQLite compares
TEXT lexicographically, matching `String`'s linear order).  Each storage
operation is a pure function from the table state (and the batch) to the new
state together with its return value, mirroring the per-row loops of
`store.py` statement by statement.
-/

namespace MarketData

/-- A row of the `prices` table (schema `SCHEMA_PRICES` in `store.py`).
The `id` / `ingested_at` bookkeeping columns are not modelled: no claim
mentions them and no query filters on them. -/
structure PriceRow where
  timestamp : String
  supplier : String
  price : Rat
  product_id : String
  currency : String
  source_name : Option String
  deriving Repr, DecidableEq

/-- A row of the `daily_metrics` table (`SCHEMA_DAILY_METRICS`), unique on
`(date, product_id, supplier)`. -/
structure MetricRow where
  date : String
  supplier : String
  product_id : String
  open_price : Rat
  close_price : Rat
  high_price : Rat
  low_price : Rat
  daily_return : Rat
  rolling_avg_7d : Rat
  volatility_7d : Rat
  deriving Repr, DecidableEq

/-- A row of the `price_comparison` table (`SCHEMA_PRICE_COMPARISONS`),
unique on `(product_id, snapshot_date)`. -/
structure CompRow where
  product_id : String
  snapshot_date : String
  cheapest_supplier : String
  cheapest_price : Rat
  most_expensive_supplier : String
  most_expensive_price : Rat
  price_spread : Option Rat
  savings_pct : Option Rat
  num_suppliers : Option Int
  deriving Repr, DecidableEq

/-- The whole SQLite database.  A table is `none` while it does not exist
(`CREATE TABLE IF NOT EXISTS` creates it empty) and `some rows` afterwards;
`indexes` records the names created by `CREATE INDEX IF NOT EXISTS`. -/
structure DB where
  prices : Option (List PriceRow)
  daily_metrics : Option (List MetricRow)
  price_comparison : Option (List CompRow)
  indexes : List String
  deriving Repr, DecidableEq

/-- `CREATE TABLE IF NOT EXISTS`: creates the table empty when absent,
leaves it untouched (rows included) when present. -/
def createTableIfNotExists {α : Type} (t : Option (List α)) : Option (List α) :=
  some (t.getD [])

/-- `CREATE INDEX IF NOT EXISTS name`: records the index name once. -/
def createIndexIfNotExists (idxs : List String) (name : String) : List String :=
  if name ∈ idxs then idxs else idxs ++ [name]

/-- The `SCHEMA_INDICIES` script (`store.py:53-58`): the four
`CREATE INDEX IF NOT EXISTS` statements in order. -/
def initIndexes (idxs : List String) : List String :=
  createIndexIfNotExists
    (createIndexIfNotExists
      (createIndexIfNotExists
        (createIndexIfNotExists idxs "idx_prices_timestamp")
        "idx_priced_product")
      "idx_metrics_date")
    "idx_comparison_date"

/-- `init_schema` (`store.py:66-72`): runs the four schema scripts. -/
def init_schema (db : DB) : DB :=
  { prices := createTableIfNotExists db.prices
    daily_metrics := createTableIfNotExists db.daily_metrics
    price_comparison := createTableIfNotExists db.price_comparison
    indexes := initIndexes db.indexes }

/-- A batch row handed to `upsert_prices`.  `insert_fails` records whether the
`INSERT` for this row raises `sqlite3.Error` (the event caught by the
`except sqlite3.Error` arm of `store.py:100`). -/
structure PriceInput where
  timestamp : String
  supplier : String
  price : Rat
  product_id : String
  currency : String
  source_name : Option String
  insert_fails : Bool
  deriving Repr, DecidableEq

/-- The row stored by a successful `INSERT INTO prices` (`store.py:83-95`). -/
def PriceInput.toRow (r : PriceInput) : PriceRow :=
  { timestamp := r.timestamp
    supplier := r.supplier
    price := r.price
    product_id := r.product_id
    currency := r.currency
    source_name := r.source_name }

/-- `upsert_prices` (`store.py:75-105`): returns `0` on an empty batch;
otherwise inserts each row, counting a success when `cursor.rowcount > 0`
(always the case for a successful plain `INSERT`), and skips — without
aborting the loop — any row whose insert raises `sqlite3.Error`. -/
def upsert_prices (rows : List PriceRow) (df : List PriceInput) :
    List PriceRow × Nat :=
  if df = [] then (rows, 0)
  else
    df.foldl
      (fun acc r =>
        if r.insert_fails then acc
        else (acc.1 ++ [r.toRow], acc.2 + 1))
      (rows, 0)

/-- A batch row handed to `upsert_metrics`.  The three derived statistics are
`Option`s: `store.py:137-139` maps a pandas missing value (`pd.notna` false)
to `0.0`. -/
structure MetricInput where
  date : String
  supplier : String
  product_id : String
  open_price : Rat
  close_price : Rat
  high_price : Rat
  low_price : Rat
  daily_return : Option Rat
  rolling_avg_7d : Option Rat
  volatility_7d : Option Rat
  deriving Repr, DecidableEq

/-- The row an `upsert_metrics` iteration offers to `INSERT INTO
daily_metrics (date, product_id, supplier, …)`.  The bound parameter tuple in
`store.py:129-140` lists `row["supplier"]` second and `row["product_id"]`
third, so the batch's `supplier` lands in the `product_id` column and the
batch's `product_id` in the `supplier` column. -/
def MetricInput.toRow (r : MetricInput) : MetricRow :=
  { date := r.date
    product_id := r.supplier
    supplier := r.product_id
    open_price := r.open_price
    close_price := r.close_price
    high_price := r.high_price
    low_price := r.low_price
    daily_return := r.daily_return.getD 0
    rolling_avg_7d := r.rolling_avg_7d.getD 0
    volatility_7d := r.volatility_7d.getD 0 }

/-- The `ON CONFLICT(date, product_id, supplier) DO UPDATE` clause of
`store.py:119-126`: it sets `open_price`, `close_price`, `low_price`,
`daily_return`, `rolling_avg_7d` and `volatility_7d` from the excluded row —
`high_price` is absent from the clause, so the old value stays. -/
def metricConflictUpdate (old new : MetricRow) : MetricRow :=
  { old with
    open_price := new.open_price
    close_price := new.close_price
    low_price := new.low_price
    daily_return := new.daily_return
    rolling_avg_7d := new.rolling_avg_7d
    volatility_7d := new.volatility_7d }

/-- The uniqueness key of `daily_metrics`. -/
def MetricRow.key (r : MetricRow) : String × String × String :=
  (r.date, r.product_id, r.supplier)

/-- One `INSERT … ON CONFLICT DO UPDATE` into a table `UNIQUE` on `key`:
updates the (at most one) row holding the new row's key, otherwise appends. -/
def upsertByKey {α κ : Type} [DecidableEq κ] (key : α → κ)
    (upd : α → α → α) (rows : List α) (new : α) : List α :=
  if rows.any (fun old => key old = key new) then
    rows.map (fun old => if key old = key new then upd old new else old)
  else rows ++ [new]

/-- `upsert_metrics` (`store.py:107-151`): returns `0` on an empty batch;
otherwise runs the conflict-aware insert for each row.  `cursor.rowcount` is
`1` for both arms of an upsert, so each row increments the counter. -/
def upsert_metrics (rows : List MetricRow) (df : List MetricInput) :
    List MetricRow × Nat :=
  if df = [] then (rows, 0)
  else
    df.foldl
      (fun acc r =>
        (upsertByKey MetricRow.key metricConflictUpdate acc.1 r.toRow,
         acc.2 + 1))
      (rows, 0)

/-- A batch row handed to `upsert_comparison` (`store.py:174-184`); the last
three fields come from `row.get`, hence may be missing. -/
structure CompInput where
  product_id : String
  snapshot_date : String
  cheapest_supplier : String
  cheapest_price : Rat
  most_expensive_supplier : String
  most_expensive_price : Rat
  price_spread : Option Rat
  savings_pct : Option Rat
  num_suppliers : Option Int
  deriving Repr, DecidableEq

/-- The row offered to `INSERT INTO price_comparison` (`store.py:162-184`). -/
def CompInput.toRow (r : CompInput) : CompRow :=
  { product_id := r.product_id
    snapshot_date := r.snapshot_date
    cheapest_supplier := r.cheapest_supplier
    cheapest_price := r.cheapest_price
    most_expensive_supplier := r.most_expensive_supplier
    most_expensive_price := r.most_expensive_price
    price_spread := r.price_spread
    savings_pct := r.savings_pct
    num_suppliers := r.num_suppliers }

/-- The `ON CONFLICT (product_id, snapshot_date) DO UPDATE` clause of
`store.py:165-173`: every non-key field is taken from the excluded row. -/
def compConflictUpdate (old new : CompRow) : CompRow :=
  { old with
    cheapest_supplier := new.cheapest_supplier
    cheapest_price := new.cheapest_price
    most_expensive_supplier := new.most_expensive_supplier
    most_expensive_price := new.most_expensive_price
    price_spread := new.price_spread
    savings_pct := new.savings_pct
    num_suppliers := new.num_suppliers }

/-- The uniqueness key of `price_comparison`. -/
def CompRow.key (r : CompRow) : String × String :=
  (r.product_id, r.snapshot_date)

/-- `upsert_comparison` (`store.py:153-193`). -/
def upsert_comparison (rows : List CompRow) (df : List CompInput) :
    List CompRow × Nat :=
  if df = [] then (rows, 0)
  else
    df.foldl
      (fun acc r =>
        (upsertByKey CompRow.key compConflictUpdate acc.1 r.toRow, acc.2 + 1))
      (rows, 0)

/-! ## Query operations (`store.py:196-267`) -/

/-- Lexicographic sort key of `ORDER BY timestamp, supplier, product_id`
(`store.py:212`).  SQLite compares TEXT columns lexicographically, which is
`String`'s linear order. -/
def priceKey (r : PriceRow) : Lex (String × Lex (String × String)) :=
  toLex (r.timestamp, toLex (r.supplier, r.product_id))

/-- Row order produced by `ORDER BY timestamp, supplier, product_id`. -/
def priceLe (a b : PriceRow) : Prop := priceKey a ≤ priceKey b

instance : DecidableRel priceLe := fun a b =>
  inferInstanceAs (Decidable (priceKey a ≤ priceKey b))

instance : IsTotal PriceRow priceLe :=
  ⟨fun a b => le_total (priceKey a) (priceKey b)⟩

instance : IsTrans PriceRow priceLe :=
  ⟨fun _ _ _ h₁ h₂ => le_trans h₁ h₂⟩

/-- Lexicographic sort key of `ORDER BY date, supplier, product_id`
(`store.py:254`). -/
def metricKey (r : MetricRow) : Lex (String × Lex (String × String)) :=
  toLex (r.date, toLex (r.supplier, r.product_id))

/-- Row order produced by `ORDER BY date, supplier, product_id`. -/
def metricLe (a b : MetricRow) : Prop := metricKey a ≤ metricKey b

instance : DecidableRel metricLe := fun a b =>
  inferInstanceAs (Decidable (metricKey a ≤ metricKey b))

instance : IsTotal MetricRow metricLe :=
  ⟨fun a b => le_total (metricKey a) (metricKey b)⟩

instance : IsTrans MetricRow metricLe :=
  ⟨fun _ _ _ h₁ h₂ => le_trans h₁ h₂⟩

/-- `query_prices` (`store.py:196-218`): `WHERE` filters for the optional
bounds and product, then `ORDER BY timestamp, supplier, product_id`.  An
absent filter (`None`, which is falsy in the `if start_date:` guards) adds no
clause. -/
def query_prices (rows : List PriceRow)
    (start_date end_date product_id : Option String) : List PriceRow :=
  List.insertionSort priceLe
    (rows.filter (fun r =>
      (match start_date with | some s => decide (s ≤ r.timestamp) | none => true) &&
      (match end_date with | some e => decide (r.timestamp ≤ e) | none => true) &&
      (match product_id with | some p => decide (r.product_id = p) | none => true)))

/-- `query_metrics` (`store.py:242-255`). -/
def query_metrics (rows : List MetricRow)
    (start_date end_date : Option String) : List MetricRow :=
  List.insertionSort metricLe
    (rows.filter (fun r =>
      (match start_date with | some s => decide (s ≤ r.date) | none => true) &&
      (match end_date with | some e => decide (r.date ≤ e) | none => true)))

/-- `MAX(timestamp)` over a list of TEXT timestamps (empty list degenerates
to `""`; the grouped subquery never produces an empty group). -/
def maxString : List String → String
  | [] => ""
  | t :: ts => ts.foldl max t

/-- The timestamps of the `(supplier, product_id)` group of the subquery
`SELECT supplier, product_id, MAX(timestamp) … GROUP BY supplier,
product_id` (`store.py:225-228`). -/
def groupTimestamps (rows : List PriceRow) (s p : String) : List String :=
  (rows.filter (fun r => decide (r.supplier = s) && decide (r.product_id = p))).map
    (·.timestamp)

/-- `MAX(timestamp)` of the `(s, p)` group. -/
def maxTimestamp (rows : List PriceRow) (s p : String) : String :=
  maxString (groupTimestamps rows s p)

/-- Sort key of `ORDER BY product_id, supplier` (`store.py:232`). -/
def latestKey (r : PriceRow) : Lex (String × String) :=
  toLex (r.product_id, r.supplier)

/-- Row order produced by `ORDER BY product_id, supplier`. -/
def latestLe (a b : PriceRow) : Prop := latestKey a ≤ latestKey b

instance : DecidableRel latestLe := fun a b =>
  inferInstanceAs (Decidable (latestKey a ≤ latestKey b))

instance : IsTotal PriceRow latestLe :=
  ⟨fun a b => le_total (latestKey a) (latestKey b)⟩

instance : IsTrans PriceRow latestLe :=
  ⟨fun _ _ _ h₁ h₂ => le_trans h₁ h₂⟩

/-- `query_latest_prices` (`store.py:220-240`): the `INNER JOIN` keeps every
`prices` row whose `(supplier, product_id, timestamp)` matches its group's
`MAX(timestamp)` entry — i.e. every row whose timestamp attains its group's
maximum — then orders by `product_id, supplier`. -/
def query_latest_prices (rows : List PriceRow) : List PriceRow :=
  List.insertionSort latestLe
    (rows.filter (fun r =>
      decide (r.timestamp = maxTimestamp rows r.supplier r.product_id)))

/-! ## Source registry (`src/sources/registry.py`) -/

/-- A raw record produced by a source's `fetch()`: an opaque payload of
column/value pairs plus the `source_name` column the registry stamps. -/
structure RawRow where
  data : List (String × String)
  source_name : Option String
  deriving Repr, DecidableEq

/-- A registered source, observed at its interface: its stable `name` and
the outcome of calling `fetch()` — a batch, or a raised exception. -/
structure DataSource where
  name : String
  fetch : Except String (List RawRow)

/-- `df["source_name"] = source.name` (`registry.py:18`). -/
def tagSource (n : String) (r : RawRow) : RawRow := { r with source_name := some n }

/-- The `for source in self.sources:` loop of `fetch_all`
(`registry.py:16-19`): fetches each source in registration order and tags
its batch; an exception from any `fetch()` propagates out of the loop. -/
def fetchLoop : List DataSource → Except String (List (List RawRow))
  | [] => .ok []
  | s :: rest =>
    match s.fetch with
    | .error e => .error e
    | .ok df => (fetchLoop rest).map (fun ds => df.map (tagSource s.name) :: ds)

/-- `SourceRegistry.fetch_all` (`registry.py:13-22`): runs the fetch loop,
then `pd.concat(dataframes)` — which raises `ValueError` when the registry
holds no sources at all. -/
def fetch_all (sources : List DataSource) : Except String (List RawRow) :=
  match fetchLoop sources with
  | .error e => .error e
  | .ok dfs =>
    if sources.isEmpty then .error "no objects to concatenate" else .ok dfs.flatten

/-! ## Cleaning stage (`src/pipeline/clean.py`)

A pandas cell is modelled by `Val`: a missing value (`NaN`/`NaT`/`None`), a
string (as a list of character codes, so that Python's `str.strip` and
`str.upper` can be embedded arithmetically), a number, or a parsed datetime.
A batch is a list of rows over the canonical columns — `standardize_columns`
(lower-cased, trimmed column names) is the identity on this fixed schema —
plus a flag recording whether the optional `category` column exists.
External pandas parsing/printing primitives (`pd.to_datetime` and
`pd.to_numeric` on individual values, `str()` of a float or datetime) are
library code, not repository code, and enter as the `PdFns` parameter. -/

/-- A string cell, as a list of character codes. -/
abbrev Chars := List Nat

/-- One pandas cell. -/
inductive Val where
  | null
  | str (s : Chars)
  | num (q : Rat)
  | dt (t : Nat)
  deriving Repr, DecidableEq

/-- Whether the cell is a Python string (what makes a column `object` dtype
for `select_dtypes(include=["object"])` in `strip_string_columns`). -/
def Val.isStr : Val → Bool
  | .str _ => true
  | _ => false

/-- Whether the cell is missing (`NaN`/`NaT`), the condition `dropna` uses. -/
def Val.isNull : Val → Bool
  | .null => true
  | _ => false

/-- Python whitespace as stripped by `str.strip`. -/
def isSpaceCode (n : Nat) : Bool :=
  n = 32 || n = 9 || n = 10 || n = 11 || n = 12 || n = 13

/-- `str.strip()`: drop leading and trailing whitespace. -/
def stripChars (s : Chars) : Chars :=
  ((s.dropWhile isSpaceCode).reverse.dropWhile isSpaceCode).reverse

/-- `str.upper()` on one ASCII character code. -/
def upperCode (n : Nat) : Nat :=
  if 97 ≤ n ∧ n ≤ 122 then n - 32 else n

/-- `str.upper()`. -/
def upperChars (s : Chars) : Chars := s.map upperCode

/-- `.str.strip()` on one cell of an `object`-dtype column: strings are
stripped, every non-string element (missing, numeric, datetime) becomes
`NaN` — pandas `.str` accessors null non-strings. -/
def stripVal : Val → Val
  | .str s => .str (stripChars s)
  | _ => .null

/-- The external pandas primitives `clean.py` calls on single values. -/
structure PdFns where
  /-- `pd.to_datetime` on a string (`errors="coerce"`: `none` is `NaT`). -/
  parseTS : Chars → Option Nat
  /-- `pd.to_datetime` on a number (epoch interpretation). -/
  tsOfNum : Rat → Option Nat
  /-- `pd.to_numeric` on a string (`errors="coerce"`). -/
  parseNum : Chars → Option Rat
  /-- `str()` of a float, as used by `astype(str)`. -/
  showNum : Rat → Chars
  /-- `str()` of a datetime, as used by `astype(str)`. -/
  showTs : Nat → Chars

/-- `pd.to_datetime(col, errors="coerce")` on one cell. -/
def toDatetimeVal (F : PdFns) : Val → Val
  | .null => .null
  | .dt t => .dt t
  | .str s => match F.parseTS s with | some t => .dt t | none => .null
  | .num q => match F.tsOfNum q with | some t => .dt t | none => .null

/-- `pd.to_numeric(col, errors="coerce")` on one cell (datetimes convert to
their epoch representation). -/
def toNumericVal (F : PdFns) : Val → Val
  | .null => .null
  | .num q => .num q
  | .str s => match F.parseNum s with | some q => .num q | none => .null
  | .dt t => .num t

/-- `astype(str)` on one cell: `NaN` stringifies to `"nan"` (codes of
`n`,`a`,`n`), strings stay themselves, numbers and datetimes print. -/
def astypeStr (F : PdFns) : Val → Chars
  | .null => [110, 97, 110]
  | .str s => s
  | .num q => F.showNum q
  | .dt t => F.showTs t

/-- A raw record over the canonical columns. -/
structure Row where
  timestamp : Val
  supplier : Val
  product_id : Val
  price : Val
  currency : Val
  category : Val
  deriving Repr, DecidableEq

/-- A batch: its rows, and whether the optional `category` column exists
(`category` cells are meaningful only when it does). -/
structure Batch where
  rows : List Row
  hasCategory : Bool
  deriving Repr, DecidableEq

/-- `standardize_columns` (`clean.py:5-8`): lower-cases and trims column
names.  On the canonical fixed schema of this model it is the identity. -/
def standardize_columns (b : Batch) : Batch := b

/-- Whether the column selected by `get` has `object` dtype: a pandas column
is `object` exactly when it holds at least one string (an all-numeric or
all-missing column is `float64`/`datetime64`). -/
def colObjecty (get : Row → Val) (rows : List Row) : Bool :=
  rows.any (fun r => (get r).isStr)

/-- One row under `strip_string_columns`, given the per-column `object`
dtype flags computed on the incoming frame. -/
def stripRow (hasCat oTs oSup oPid oPr oCur oCat : Bool) (r : Row) : Row :=
  { timestamp := if oTs then stripVal r.timestamp else r.timestamp
    supplier := if oSup then stripVal r.supplier else r.supplier
    product_id := if oPid then stripVal r.product_id else r.product_id
    price := if oPr then stripVal r.price else r.price
    currency := if oCur then stripVal r.currency else r.currency
    category := if hasCat && oCat then stripVal r.category else r.category }

/-- `strip_string_columns` (`clean.py:11-18`): `select_dtypes` picks the
`object`-dtype columns of the incoming frame once, then each selected column
is mapped through `.str.strip()`. -/
def strip_string_columns (b : Batch) : Batch :=
  { b with rows := b.rows.map (stripRow b.hasCategory
      (colObjecty (·.timestamp) b.rows)
      (colObjecty (·.supplier) b.rows)
      (colObjecty (·.product_id) b.rows)
      (colObjecty (·.price) b.rows)
      (colObjecty (·.currency) b.rows)
      (colObjecty (·.category) b.rows)) }

/-- One row under `fix_data_types`. -/
def fixRow (F : PdFns) (r : Row) : Row :=
  { r with
    timestamp := toDatetimeVal F r.timestamp
    price := toNumericVal F r.price
    product_id := .str (upperChars (astypeStr F r.product_id))
    currency := .str (upperChars (astypeStr F r.currency)) }

/-- `fix_data_types` (`clean.py:21-39`): `timestamp` through
`pd.to_datetime(…, errors="coerce")`, `price` through `pd.to_numeric(…,
errors="coerce")`, `product_id` and `currency` through
`.astype(str).str.upper()`. -/
def fix_data_types (F : PdFns) (b : Batch) : Batch :=
  { b with rows := b.rows.map (fixRow F) }

/-- `dropna(subset=required_columns)`'s keep-condition: no required cell is
missing (`required_columns` in `config.py:35-41`). -/
def requiredPresent (r : Row) : Bool :=
  !r.timestamp.isNull && !r.supplier.isNull && !r.product_id.isNull &&
    !r.price.isNull && !r.currency.isNull

/-- The codes of `"Unknown"`. -/
def unknownChars : Chars := [85, 110, 107, 110, 111, 119, 110]

/-- `fillna("Unknown")` on the `category` cell of one row, applied only
when the column exists. -/
def fillCategory (hasCat : Bool) (r : Row) : Row :=
  if hasCat && r.category.isNull then { r with category := .str unknownChars }
  else r

/-- `handle_missing_values` (`clean.py:42-60`): drop the rows missing a
required field, then — when the `category` column exists —
`fillna("Unknown")` on it. -/
def handle_missing_values (b : Batch) : Batch :=
  { b with rows := (b.rows.filter requiredPresent).map (fillCategory b.hasCategory) }

/-- `clean_data` (`clean.py:63-68`): the four stages in order. -/
def clean_data (F : PdFns) (b : Batch) : Batch :=
  handle_missing_values (fix_data_types F (strip_string_columns
    (standardize_columns b)))

/-! ## Helper lemmas -/

/-- Closed form of the `upsert_prices` row loop: the table grows by exactly
the successfully inserted rows, in batch order, and the counter counts
them. -/
theorem upsertPrices_loop (df : List PriceInput) (rows : List PriceRow) (n : Nat) :
    df.foldl
        (fun acc r =>
          if r.insert_fails then acc else (acc.1 ++ [r.toRow], acc.2 + 1))
        (rows, n) =
      (rows ++ (df.filter (fun r => !r.insert_fails)).map PriceInput.toRow,
        n + (df.filter (fun r => !r.insert_fails)).length) := by
  induction df generalizing rows n with
  | nil => simp
  | cons r rest ih =>
    by_cases h : r.insert_fails
    · simp [List.foldl_cons, h, ih]
    · simp only [List.foldl_cons, h, if_neg, Bool.false_eq_true, ih,
        List.filter_cons, Bool.not_false, if_true]
      refine Prod.ext ?_ ?_
      · simp
      · simp; omega

/-- `upsert_prices` on a batch, in closed form. -/
theorem upsert_prices_eq (rows : List PriceRow) (df : List PriceInput) :
    upsert_prices rows df =
      (rows ++ (df.filter (fun r => !r.insert_fails)).map PriceInput.toRow,
        (df.filter (fun r => !r.insert_fails)).length) := by
  unfold upsert_prices
  by_cases h : df = []
  · subst h; simp
  · simp only [if_neg h, upsertPrices_loop, Nat.zero_add]

/-- `CREATE INDEX IF NOT EXISTS n` leaves the index present. -/
theorem mem_createIndexIfNotExists_self (l : List String) (n : String) :
    n ∈ createIndexIfNotExists l n := by
  unfold createIndexIfNotExists
  split
  · assumption
  · simp

/-- `CREATE INDEX IF NOT EXISTS n` keeps every index already present. -/
theorem mem_createIndexIfNotExists_of_mem {l : List String} {m : String}
    (n : String) (h : m ∈ l) : m ∈ createIndexIfNotExists l n := by
  unfold createIndexIfNotExists
  split
  · exact h
  · simp [h]

/-- `CREATE INDEX IF NOT EXISTS n` is a no-op when the index exists. -/
theorem createIndexIfNotExists_eq_of_mem {l : List String} {n : String}
    (h : n ∈ l) : createIndexIfNotExists l n = l := by
  simp [createIndexIfNotExists, h]

/-- Running the index script a second time changes nothing. -/
theorem initIndexes_idem (l : List String) :
    initIndexes (initIndexes l) = initIndexes l := by
  have hmem : ∀ n ∈ ["idx_prices_timestamp", "idx_priced_product",
      "idx_metrics_date", "idx_comparison_date"], n ∈ initIndexes l := by
    intro n hn
    unfold initIndexes
    simp only [List.mem_cons, List.not_mem_nil, or_false] at hn
    rcases hn with rfl | rfl | rfl | rfl
    · exact mem_createIndexIfNotExists_of_mem _
        (mem_createIndexIfNotExists_of_mem _
          (mem_createIndexIfNotExists_of_mem _
            (mem_createIndexIfNotExists_self _ _)))
    · exact mem_createIndexIfNotExists_of_mem _
        (mem_createIndexIfNotExists_of_mem _
          (mem_createIndexIfNotExists_self _ _))
    · exact mem_createIndexIfNotExists_of_mem _
        (mem_createIndexIfNotExists_self _ _)
    · exact mem_createIndexIfNotExists_self _ _
  show createIndexIfNotExists (createIndexIfNotExists (createIndexIfNotExists
      (createIndexIfNotExists (initIndexes l) "idx_prices_timestamp")
      "idx_priced_product") "idx_metrics_date") "idx_comparison_date" =
    initIndexes l
  rw [createIndexIfNotExists_eq_of_mem (hmem _ (by simp)),
    createIndexIfNotExists_eq_of_mem (hmem _ (by simp)),
    createIndexIfNotExists_eq_of_mem (hmem _ (by simp)),
    createIndexIfNotExists_eq_of_mem (hmem _ (by simp))]

/-! ## Claims -/

/-- C10: each of `upsert_prices`, `upsert_metrics` and `upsert_comparison`
returns `0` on an empty batch and leaves its table unchanged (the `if
df.empty: return 0` guards at `store.py:76-77`, `store.py:108-109` and
`store.py:154-155` return before any cursor is opened or commit issued). -/
theorem upserts_empty_batch_are_noops (p : List PriceRow) (m : List MetricRow)
    (c : List CompRow) :
    upsert_prices p [] = (p, 0) ∧ upsert_metrics m [] = (m, 0) ∧
      upsert_comparison c [] = (c, 0) :=
  ⟨rfl, rfl, rfl⟩

/-- C7: `init_schema` is idempotent — a second call returns the identical
database (same tables, same indexes, stored rows untouched) and, being a
total function built from `IF NOT EXISTS` scripts, raises no error. -/
theorem init_schema_idempotent (db : DB) :
    init_schema (init_schema db) = init_schema db ∧
    (init_schema db).prices = some (db.prices.getD []) ∧
    (init_schema db).daily_metrics = some (db.daily_metrics.getD []) ∧
    (init_schema db).price_comparison = some (db.price_comparison.getD []) := by
  refine ⟨?_, rfl, rfl, rfl⟩
  simp [init_schema, createTableIfNotExists, initIndexes_idem]

/-- C5: a failing row insert (`sqlite3.Error`, caught at `store.py:100-101`)
is skipped: `upsert_prices` inserts exactly the non-failing rows, keeps
every previously stored row, returns the number of successes — the batch
size minus the number of failed rows — and, as a total function, raises
nothing. -/
theorem upsert_prices_skips_failing_rows (rows : List PriceRow)
    (df : List PriceInput) :
    (upsert_prices rows df).1 =
        rows ++ (df.filter (fun r => !r.insert_fails)).map PriceInput.toRow ∧
    (upsert_prices rows df).2 = (df.filter (fun r => !r.insert_fails)).length ∧
    (upsert_prices rows df).2 =
        df.length - (df.filter (fun r => r.insert_fails)).length := by
  rw [upsert_prices_eq]
  refine ⟨rfl, rfl, ?_⟩
  have h := List.length_eq_length_filter_add (l := df) (fun r => r.insert_fails)
  simp only []
  omega

/-- C6: the `prices` table is append-only — `upsert_prices` only ever
appends (first conjunct, for an arbitrary batch), and re-submitting the same
`n`-row batch of valid (non-failing) observations a second time appends a
second full copy, for `2n` new rows. -/
theorem upsert_prices_append_only (rows : List PriceRow) (df : List PriceInput)
    (hvalid : ∀ r ∈ df, r.insert_fails = false) :
    (∀ (rows' : List PriceRow) (df' : List PriceInput), ∃ appended,
        (upsert_prices rows' df').1 = rows' ++ appended) ∧
    (upsert_prices (upsert_prices rows df).1 df).1 =
        rows ++ df.map PriceInput.toRow ++ df.map PriceInput.toRow ∧
    (upsert_prices (upsert_prices rows df).1 df).1.length =
        rows.length + 2 * df.length := by
  have hfilter : df.filter (fun r => !r.insert_fails) = df :=
    List.filter_eq_self.mpr (fun r hr => by simp [hvalid r hr])
  refine ⟨fun rows' df' => ⟨_, by rw [upsert_prices_eq]⟩, ?_, ?_⟩
  · rw [upsert_prices_eq, upsert_prices_eq, hfilter, List.append_assoc]
  · rw [upsert_prices_eq, upsert_prices_eq, hfilter]
    simp [List.length_append]
    omega

/-- Witness for `upsert_prices_append_only` at a concrete one-row batch. -/
theorem upsert_prices_append_only_witness :
    let r : PriceInput :=
      { timestamp := "2024-01-01", supplier := "sephora", price := 10,
        product_id := "P1", currency := "USD", source_name := some "csv",
        insert_fails := false }
    (upsert_prices (upsert_prices [] [r]).1 [r]).1 =
        [] ++ [r].map PriceInput.toRow ++ [r].map PriceInput.toRow := by
  intro r
  exact (upsert_prices_append_only [] [r] (by simp)).2.1

/-- A stored `daily_metrics` row whose key, read off the table's columns, is
`(date, product_id, supplier) = ("2024-01-01", "P1", "S1")`. -/
def c1Stored : MetricRow :=
  { date := "2024-01-01", supplier := "S1", product_id := "P1",
    open_price := 1, close_price := 2, high_price := 5, low_price := 1,
    daily_return := 0, rolling_avg_7d := 0, volatility_7d := 0 }

/-- A batch row carrying the same `(date, product_id, supplier)` key
`("2024-01-01", "P1", "S1")` with fresh numeric values. -/
def c1Batch : MetricInput :=
  { date := "2024-01-01", supplier := "S1", product_id := "P1",
    open_price := 10, close_price := 20, high_price := 9, low_price := 3,
    daily_return := some 1, rolling_avg_7d := some 1, volatility_7d := some 1 }

/-- The stored row with the two key strings the other way around —
`(product_id, supplier) = ("S1", "P1")` — i.e. the key the code's
mis-ordered parameter tuple actually targets. -/
def c1StoredSwapped : MetricRow :=
  { date := "2024-01-01", supplier := "P1", product_id := "S1",
    open_price := 1, close_price := 2, high_price := 5, low_price := 1,
    daily_return := 0, rolling_avg_7d := 0, volatility_7d := 0 }

/-- C1 (code bug): the batch row `c1Batch` shares its
`(date, product_id, supplier)` key with the stored row `c1Stored`, yet
`upsert_metrics` leaves `c1Stored` entirely untouched and appends a new row
whose `product_id`/`supplier` columns hold the batch row's values swapped —
the parameter tuple at `store.py:129-132` binds `row["supplier"]` to the
`product_id` column and `row["product_id"]` to the `supplier` column.  And
even when the insert does collide (second conjunct group, against
`c1StoredSwapped`), the `DO UPDATE` clause at `store.py:119-126` omits
`high_price`, so the old `high_price = 5` survives while every other numeric
field takes the batch value. -/
theorem upsert_metrics_swaps_key_and_skips_high_price :
    (c1Stored.date, c1Stored.product_id, c1Stored.supplier) =
        (c1Batch.date, c1Batch.product_id, c1Batch.supplier) ∧
    (upsert_metrics [c1Stored] [c1Batch]).1 =
        [c1Stored,
         { date := "2024-01-01", supplier := "P1", product_id := "S1",
           open_price := 10, close_price := 20, high_price := 9,
           low_price := 3, daily_return := 1, rolling_avg_7d := 1,
           volatility_7d := 1 }] ∧
    (upsert_metrics [c1StoredSwapped] [c1Batch]).1 =
        [{ date := "2024-01-01", supplier := "P1", product_id := "S1",
           open_price := 10, close_price := 20, high_price := 5,
           low_price := 3, daily_return := 1, rolling_avg_7d := 1,
           volatility_7d := 1 }] ∧
    c1Batch.high_price = 9 := by
  refine ⟨rfl, ?_, ?_, rfl⟩ <;> decide

/-- Pandas primitives for the concrete cleaning evaluations; the parsers are
never consulted on the inputs used (which carry already-typed cells). -/
def cFns : PdFns :=
  { parseTS := fun _ => none, tsOfNum := fun _ => none,
    parseNum := fun _ => none, showNum := fun _ => [], showTs := fun _ => [] }

/-- A raw row whose required `currency` field is missing; the other required
fields are present (`[97] = "a"`, `[112] = "p"`). -/
def c3Row : Row :=
  { timestamp := .dt 1, supplier := .str [97], product_id := .str [112],
    price := .num 3, currency := .null, category := .null }

/-- C3 (code bug): `clean_data` does not drop the row missing its
`currency`: `fix_data_types` runs `astype(str)` before
`handle_missing_values`' dropna, which stringifies the missing value to
`"nan"` and upper-cases it to `"NAN"` (`[78, 65, 78]`), so the required
field is no longer null when `dropna` looks.  The row survives with
`currency = "NAN"`. -/
theorem clean_data_keeps_row_with_missing_currency :
    c3Row.currency = .null ∧
    (clean_data cFns { rows := [c3Row], hasCategory := false }).rows =
      [{ timestamp := .dt 1, supplier := .str [97], product_id := .str [80],
         price := .num 3, currency := .str [78, 65, 78],
         category := .null }] ∧
    astypeStr cFns .null = [110, 97, 110] ∧
    upperChars [110, 97, 110] = [78, 65, 78] := by
  refine ⟨rfl, ?_, rfl, rfl⟩
  decide

/-- A registered source whose `fetch()` returns one record. -/
def c4Ok : DataSource :=
  { name := "csv",
    fetch := .ok [{ data := [("product_id", "X")], source_name := none }] }

/-- A registered source whose `fetch()` raises. -/
def c4Bad : DataSource :=
  { name := "lamour", fetch := .error "TimeoutException" }

/-- C4 (counterexample): with two registered sources of which the second
throws, `fetch_all` propagates the exception (`registry.py:16-19` wraps
`source.fetch()` in no handler) instead of returning the first source's
tagged records — which it does return when the throwing source is absent. -/
theorem fetch_all_aborts_on_throwing_source :
    fetch_all [c4Ok, c4Bad] = .error "TimeoutException" ∧
    fetch_all [c4Ok] =
      .ok [{ data := [("product_id", "X")], source_name := some "csv" }] :=
  ⟨rfl, rfl⟩

/-- The tagged records a non-throwing source contributes to `fetch_all`. -/
def fetchedRecords (s : DataSource) : List RawRow :=
  match s.fetch with
  | .ok df => df.map (tagSource s.name)
  | .error _ => []

/-- The fetch loop errors as soon as any source's fetch raised. -/
theorem fetchLoop_error {sources : List DataSource}
    (h : ∃ s ∈ sources, ∃ e, s.fetch = .error e) :
    ∃ e, fetchLoop sources = .error e := by
  induction sources with
  | nil => simp at h
  | cons s rest ih =>
    obtain ⟨s', hs', e, he⟩ := h
    rcases List.mem_cons.mp hs' with rfl | hmem
    · exact ⟨e, by simp [fetchLoop, he]⟩
    · cases hfetch : s.fetch with
      | error e' => exact ⟨e', by simp [fetchLoop, hfetch]⟩
      | ok df =>
        obtain ⟨e'', he''⟩ := ih ⟨s', hmem, e, he⟩
        exact ⟨e'', by simp [fetchLoop, hfetch, he'', Except.map]⟩

/-- The fetch loop succeeds with the per-source tagged batches when every
fetch succeeds. -/
theorem fetchLoop_ok {sources : List DataSource}
    (h : ∀ s ∈ sources, ∃ df, s.fetch = .ok df) :
    fetchLoop sources = .ok (sources.map fetchedRecords) := by
  induction sources with
  | nil => rfl
  | cons s rest ih =>
    obtain ⟨df, hdf⟩ := h s (List.mem_cons_self s rest)
    have := ih (fun s' hs' => h s' (List.mem_cons_of_mem s hs'))
    simp [fetchLoop, hdf, this, fetchedRecords, Except.map]

/-- C4 (amended): `fetch_all` aggregates the tagged, concatenated records of
the registered sources only when every source's `fetch()` succeeds; if any
registered source's fetch throws, `fetch_all` propagates an exception and
aggregates nothing. -/
theorem fetch_all_requires_all_sources_ok (sources : List DataSource)
    (hne : sources ≠ []) :
    ((∃ s ∈ sources, ∃ e, s.fetch = .error e) →
        ∃ e, fetch_all sources = .error e) ∧
    ((∀ s ∈ sources, ∃ df, s.fetch = .ok df) →
        fetch_all sources = .ok (sources.map fetchedRecords).flatten) := by
  constructor
  · intro h
    obtain ⟨e, he⟩ := fetchLoop_error h
    exact ⟨e, by simp [fetch_all, he]⟩
  · intro h
    simp [fetch_all, fetchLoop_ok h, List.isEmpty_iff, hne]

/-- Witness for `fetch_all_requires_all_sources_ok`: the single-source
registry `[c4Ok]` aggregates to its tagged record. -/
theorem fetch_all_requires_all_sources_ok_witness :
    fetch_all [c4Ok] = .ok ([c4Ok].map fetchedRecords).flatten :=
  (fetch_all_requires_all_sources_ok [c4Ok] (by simp)).2
    (fun s hs => by
      rcases List.mem_cons.mp hs with rfl | h
      · exact ⟨_, rfl⟩
      · simp at h)

/-- C8: `query_prices` returns its rows sorted by timestamp, then supplier,
then product id, and `query_metrics` by date, then supplier, then product id
(the `ORDER BY` clauses at `store.py:212` and `store.py:254`); both are pure
functions of the stored data and filters, hence deterministic.  The last two
conjuncts spell out that the sort orders are exactly those lexicographic
comparisons. -/
theorem queries_return_sorted_rows (prices : List PriceRow)
    (metrics : List MetricRow) (sd ed pid sd' ed' : Option String) :
    List.Sorted priceLe (query_prices prices sd ed pid) ∧
    List.Sorted metricLe (query_metrics metrics sd' ed') ∧
    (∀ a b : PriceRow, priceLe a b ↔ a.timestamp < b.timestamp ∨
      (a.timestamp = b.timestamp ∧ (a.supplier < b.supplier ∨
        (a.supplier = b.supplier ∧ a.product_id ≤ b.product_id)))) ∧
    (∀ a b : MetricRow, metricLe a b ↔ a.date < b.date ∨
      (a.date = b.date ∧ (a.supplier < b.supplier ∨
        (a.supplier = b.supplier ∧ a.product_id ≤ b.product_id)))) := by
  refine ⟨List.sorted_insertionSort _ _, List.sorted_insertionSort _ _,
    ?_, ?_⟩
  · intro a b
    simp [priceLe, priceKey, Prod.Lex.le_iff]
  · intro a b
    simp [metricLe, metricKey, Prod.Lex.le_iff]

/-- An observation for supplier `"s"`, product `"p"`. -/
def c2RowA : PriceRow :=
  { timestamp := "2024-01-02", supplier := "s", price := 1,
    product_id := "p", currency := "USD", source_name := none }

/-- A second observation for the same pair with the same (maximal)
timestamp. -/
def c2RowB : PriceRow := { c2RowA with price := 2 }

/-- C2 (counterexample): when two stored observations of the pair
`("s", "p")` share the maximal timestamp, the `INNER JOIN` of
`query_latest_prices` keeps both, so the pair gets two rows, not exactly
one. -/
theorem query_latest_prices_tie_two_rows :
    (∃ r ∈ [c2RowA, c2RowB], r.supplier = "s" ∧ r.product_id = "p") ∧
    ¬((query_latest_prices [c2RowA, c2RowB]).countP
        (fun r => decide (r.supplier = "s") && decide (r.product_id = "p"))
      = 1) := by
  have hmax : maxTimestamp [c2RowA, c2RowB] "s" "p" = "2024-01-02" := by
    simp [maxTimestamp, groupTimestamps, c2RowA, c2RowB, maxString]
  refine ⟨⟨c2RowA, by simp, rfl, rfl⟩, ?_⟩
  unfold query_latest_prices
  rw [(List.perm_insertionSort latestLe _).countP_eq]
  have hA : (decide (c2RowA.timestamp =
      maxTimestamp [c2RowA, c2RowB] c2RowA.supplier c2RowA.product_id)) = true := by
    simp only [decide_eq_true_eq]
    show "2024-01-02" = maxTimestamp [c2RowA, c2RowB] "s" "p"
    exact hmax.symm
  have hB : (decide (c2RowB.timestamp =
      maxTimestamp [c2RowA, c2RowB] c2RowB.supplier c2RowB.product_id)) = true := by
    simp only [decide_eq_true_eq]
    show "2024-01-02" = maxTimestamp [c2RowA, c2RowB] "s" "p"
    exact hmax.symm
  simp only [List.filter_cons, List.filter_nil, hA, hB, if_true]
  simp [List.countP_cons, c2RowA, c2RowB]

/-- Seed value of a `foldl max` is a lower bound of the result. -/
theorem le_foldl_max (l : List String) (a : String) : a ≤ l.foldl max a := by
  induction l generalizing a with
  | nil => exact le_refl a
  | cons x xs ih => exact le_trans (le_max_left a x) (ih (max a x))

/-- Every element of the list is a lower bound of its `foldl max`. -/
theorem foldl_max_le_of_mem {l : List String} {x : String} (h : x ∈ l)
    (a : String) : x ≤ l.foldl max a := by
  induction l generalizing a with
  | nil => simp at h
  | cons y ys ih =>
    rcases List.mem_cons.mp h with rfl | h'
    · exact le_trans (le_max_right a x) (le_foldl_max ys (max a x))
    · exact ih h' (max a y)

/-- A `foldl max` result is the seed or an element of the list. -/
theorem foldl_max_mem (l : List String) (a : String) :
    l.foldl max a = a ∨ l.foldl max a ∈ l := by
  induction l generalizing a with
  | nil => exact Or.inl rfl
  | cons x xs ih =>
    rcases ih (max a x) with h | h
    · rcases max_choice a x with hc | hc
      · exact Or.inl (by rw [List.foldl_cons, h, hc])
      · exact Or.inr (by rw [List.foldl_cons, h, hc]; exact List.mem_cons_self x xs)
    · exact Or.inr (List.mem_cons_of_mem x h)

/-- `MAX` of a nonempty TEXT column is attained. -/
theorem maxString_mem {l : List String} (h : l ≠ []) : maxString l ∈ l := by
  cases l with
  | nil => exact absurd rfl h
  | cons t ts =>
    rcases foldl_max_mem ts t with h' | h'
    · rw [maxString, h']; exact List.mem_cons_self t ts
    · exact List.mem_cons_of_mem t h'

/-- `MAX` of a TEXT column bounds every entry. -/
theorem le_maxString {l : List String} {x : String} (h : x ∈ l) :
    x ≤ maxString l := by
  cases l with
  | nil => simp at h
  | cons t ts =>
    rcases List.mem_cons.mp h with rfl | h'
    · exact le_foldl_max ts x
    · exact foldl_max_le_of_mem h' t

/-- A row of the `(s, p)` group contributes its timestamp to the group of
the `GROUP BY` subquery. -/
theorem timestamp_mem_groupTimestamps {rows : List PriceRow} {r : PriceRow}
    (hr : r ∈ rows) (hs : r.supplier = s) (hp : r.product_id = p) :
    r.timestamp ∈ groupTimestamps rows s p := by
  exact List.mem_map_of_mem _ (List.mem_filter.mpr ⟨hr, by simp [hs, hp]⟩)

/-- C2 (amended): for every pair with at least one stored observation,
`query_latest_prices` returns at least one row for the pair; every returned
row of the pair carries the group's maximal timestamp (so dominates every
stored observation of the pair); and the number of returned rows for the
pair equals the number of stored observations attaining that maximum —
exactly one only when the maximum is attained uniquely. -/
theorem query_latest_prices_max_per_pair (rows : List PriceRow) (s p : String)
    (h : ∃ r ∈ rows, r.supplier = s ∧ r.product_id = p) :
    (∃ r ∈ query_latest_prices rows, r.supplier = s ∧ r.product_id = p ∧
        r.timestamp = maxTimestamp rows s p) ∧
    (∀ r ∈ query_latest_prices rows, r.supplier = s → r.product_id = p →
        r.timestamp = maxTimestamp rows s p ∧
        ∀ r' ∈ rows, r'.supplier = s → r'.product_id = p →
          r'.timestamp ≤ r.timestamp) ∧
    ((query_latest_prices rows).countP
        (fun r => decide (r.supplier = s) && decide (r.product_id = p)) =
      rows.countP (fun r => decide (r.supplier = s) &&
        decide (r.product_id = p) &&
        decide (r.timestamp = maxTimestamp rows s p))) := by
  obtain ⟨r₀, hr₀, hs₀, hp₀⟩ := h
  have hne : groupTimestamps rows s p ≠ [] :=
    List.ne_nil_of_mem (timestamp_mem_groupTimestamps hr₀ hs₀ hp₀)
  refine ⟨?_, ?_, ?_⟩
  · obtain ⟨r₁, hr₁, ht₁⟩ := List.mem_map.mp (maxString_mem hne)
    obtain ⟨hr₁rows, hpred⟩ := List.mem_filter.mp hr₁
    simp only [Bool.and_eq_true, decide_eq_true_eq] at hpred
    refine ⟨r₁, ?_, hpred.1, hpred.2, ht₁⟩
    unfold query_latest_prices
    rw [List.mem_insertionSort]
    refine List.mem_filter.mpr ⟨hr₁rows, ?_⟩
    simp only [hpred.1, hpred.2, decide_eq_true_eq]
    exact ht₁
  · intro r hr hs hp
    unfold query_latest_prices at hr
    rw [List.mem_insertionSort] at hr
    obtain ⟨hrrows, hrpred⟩ := List.mem_filter.mp hr
    simp only [decide_eq_true_eq] at hrpred
    rw [hs, hp] at hrpred
    refine ⟨hrpred, ?_⟩
    intro r' hr' hs' hp'
    rw [hrpred]
    exact le_maxString (timestamp_mem_groupTimestamps hr' hs' hp')
  · unfold query_latest_prices
    rw [(List.perm_insertionSort latestLe _).countP_eq, List.countP_filter]
    refine List.countP_congr ?_
    intro r _
    by_cases hs : r.supplier = s
    · by_cases hp : r.product_id = p
      · simp [hs, hp]
      · simp [hp]
    · simp [hs]

/-- A raw row whose optional `category` holds a number (`[97] = "a"`,
`[112] = "p"`, `[85, 83, 68] = "USD"`). -/
def c9Row1 : Row :=
  { timestamp := .dt 1, supplier := .str [97], product_id := .str [112],
    price := .num 3, currency := .str [85, 83, 68], category := .num 5 }

/-- The same row with its `category` missing. -/
def c9Row2 : Row := { c9Row1 with category := .null }

/-- A batch with a `category` column mixing a number and a missing value. -/
def c9Batch : Batch := { rows := [c9Row1, c9Row2], hasCategory := true }

/-- C9 (counterexample): `clean_data` is not idempotent.  On `c9Batch` the
first pass fills the missing `category` with the string `"Unknown"`, turning
the `category` column into `object` dtype; the second pass therefore runs
`.str.strip()` over it, which nulls the numeric `category` of the first row,
and the `fillna` replaces it with `"Unknown"` — so the second pass changes
the batch. -/
theorem clean_data_not_idempotent :
    clean_data cFns (clean_data cFns c9Batch) ≠ clean_data cFns c9Batch := by
  decide

/-! Auxiliary string lemmas for the amended idempotence statement. -/

/-- Dropping a prefix satisfying `p` is idempotent. -/
theorem dropWhile_idem (p : Nat → Bool) (l : List Nat) :
    (l.dropWhile p).dropWhile p = l.dropWhile p := by
  induction l with
  | nil => rfl
  | cons x xs ih =>
    by_cases h : p x <;> simp [List.dropWhile_cons, h, ih]

/-- A list fixed by `dropWhile p` has no leading element satisfying `p`,
so any of its prefixes is likewise fixed. -/
theorem dropWhile_eq_self_of_prefix {p : Nat → Bool} {l l₁ : List Nat}
    (hl : l.dropWhile p = l) (hpre : l₁ <+: l) : l₁.dropWhile p = l₁ := by
  cases l₁ with
  | nil => rfl
  | cons x xs =>
    cases l with
    | nil => simp at hpre
    | cons y ys =>
      obtain ⟨rfl, -⟩ := List.cons_prefix_cons.mp hpre
      have hpx : p x = false := by
        by_contra hpx
        rw [Bool.not_eq_false] at hpx
        rw [List.dropWhile_cons_of_pos hpx] at hl
        have hlen := congrArg List.length hl
        have hle := (List.dropWhile_sublist (l := ys) p).length_le
        simp at hlen
        omega
      rw [List.dropWhile_cons_of_neg (by simp [hpx])]

/-- `stripChars` is idempotent: a stripped string strips to itself. -/
theorem stripChars_idem (s : Chars) :
    stripChars (stripChars s) = stripChars s := by
  have hA : (s.dropWhile isSpaceCode).dropWhile isSpaceCode =
      s.dropWhile isSpaceCode := dropWhile_idem _ _
  have hpre : stripChars s <+: s.dropWhile isSpaceCode := by
    have h := (List.dropWhile_suffix (l := (s.dropWhile isSpaceCode).reverse)
      isSpaceCode).reverse
    rwa [List.reverse_reverse] at h
  have h1 : (stripChars s).dropWhile isSpaceCode = stripChars s :=
    dropWhile_eq_self_of_prefix hA hpre
  have h2 : (stripChars s).reverse =
      (s.dropWhile isSpaceCode).reverse.dropWhile isSpaceCode := by
    unfold stripChars
    rw [List.reverse_reverse]
  calc stripChars (stripChars s)
      = (((stripChars s).dropWhile isSpaceCode).reverse.dropWhile
          isSpaceCode).reverse := rfl
    _ = ((stripChars s).reverse.dropWhile isSpaceCode).reverse := by rw [h1]
    _ = (((s.dropWhile isSpaceCode).reverse.dropWhile isSpaceCode).dropWhile
          isSpaceCode).reverse := by rw [h2]
    _ = ((s.dropWhile isSpaceCode).reverse.dropWhile isSpaceCode).reverse := by
          rw [dropWhile_idem]
    _ = stripChars s := rfl

/-- Upper-casing one code is idempotent. -/
theorem upperCode_idem (n : Nat) : upperCode (upperCode n) = upperCode n := by
  unfold upperCode
  by_cases h : 97 ≤ n ∧ n ≤ 122
  · have h' : ¬(97 ≤ n - 32 ∧ n - 32 ≤ 122) := by omega
    simp [h, h']
    omega
  · simp [h]

/-- Upper-casing a string is idempotent. -/
theorem upperChars_idem (s : Chars) : upperChars (upperChars s) = upperChars s := by
  unfold upperChars
  rw [List.map_map]
  exact List.map_congr_left (fun n _ => upperCode_idem n)

/-- Upper-casing neither creates nor destroys whitespace. -/
theorem isSpaceCode_upperCode (n : Nat) :
    isSpaceCode (upperCode n) = isSpaceCode n := by
  unfold upperCode
  by_cases h : 97 ≤ n ∧ n ≤ 122
  · have h1 : isSpaceCode (n - 32) = false := by
      simp only [isSpaceCode]
      simp only [Bool.or_eq_false_iff, decide_eq_false_iff_not]
      omega
    have h2 : isSpaceCode n = false := by
      simp only [isSpaceCode]
      simp only [Bool.or_eq_false_iff, decide_eq_false_iff_not]
      omega
    simp [h, h1, h2]
  · simp [h]

/-- `dropWhile` commutes with a map that preserves the predicate. -/
theorem dropWhile_map_upperCode (l : List Nat) :
    (l.map upperCode).dropWhile isSpaceCode =
      (l.dropWhile isSpaceCode).map upperCode := by
  induction l with
  | nil => rfl
  | cons x xs ih =>
    by_cases h : isSpaceCode x
    · simp [List.dropWhile_cons, isSpaceCode_upperCode, h, ih]
    · simp [List.dropWhile_cons, isSpaceCode_upperCode, h]

/-- Stripping commutes with upper-casing. -/
theorem stripChars_upperChars (s : Chars) :
    stripChars (upperChars s) = upperChars (stripChars s) := by
  unfold stripChars upperChars
  rw [dropWhile_map_upperCode, ← List.map_reverse, dropWhile_map_upperCode,
    ← List.map_reverse]

/-- An already-stripped string stays stripped under upper-casing. -/
theorem stripChars_upperChars_of_stripped {s : Chars}
    (h : stripChars s = s) : stripChars (upperChars s) = upperChars s := by
  rw [stripChars_upperChars, h]

/-- The shape `clean_data` gives every surviving row: a parsed timestamp, a
numeric price, stripped upper-case string `product_id` and `currency`, and a
non-null supplier that is stripped whenever it is a string. -/
def RowCleaned (r : Row) : Prop :=
  (∃ t, r.timestamp = .dt t) ∧
  (∃ q, r.price = .num q) ∧
  (∃ s, r.product_id = .str s ∧ stripChars s = s ∧ upperChars s = s) ∧
  (∃ s, r.currency = .str s ∧ stripChars s = s ∧ upperChars s = s) ∧
  r.supplier.isNull = false ∧
  (∀ s, r.supplier = .str s → stripChars s = s)

/-- The column-level shape `clean_data` leaves behind: every row is cleaned
and the supplier column is homogeneous — all strings (it was `object` dtype
and the nulls were dropped) or entirely string-free. -/
def BatchCleaned (b : Batch) : Prop :=
  (∀ r ∈ b.rows, RowCleaned r) ∧
  ((∀ r ∈ b.rows, r.supplier.isStr = true) ∨
    (∀ r ∈ b.rows, r.supplier.isStr = false))

/-- A string produced by `.str.strip()` is stripped. -/
theorem stripVal_str_stripped {v : Val} {s : Chars}
    (h : stripVal v = .str s) : stripChars s = s := by
  cases v with
  | str s₀ =>
    simp only [stripVal, Val.str.injEq] at h
    rw [← h, stripChars_idem]
  | null => simp [stripVal] at h
  | num q => simp [stripVal] at h
  | dt t => simp [stripVal] at h

/-- A column holding a string is `object` dtype. -/
theorem colObjecty_of_isStr {get : Row → Val} {rows : List Row} {r : Row}
    (hr : r ∈ rows) (h : (get r).isStr = true) : colObjecty get rows = true :=
  List.any_eq_true.mpr ⟨r, hr, h⟩

/-- `astype(str)` yields a stripped string whenever the cell's own string
content is stripped and the printers produce whitespace-free output. -/
theorem stripChars_astypeStr {F : PdFns}
    (hnum : ∀ q, stripChars (F.showNum q) = F.showNum q)
    (hts : ∀ t, stripChars (F.showTs t) = F.showTs t)
    {v : Val} (hstr : ∀ s, v = .str s → stripChars s = s) :
    stripChars (astypeStr F v) = astypeStr F v := by
  cases v with
  | null => rfl
  | str s => exact hstr s rfl
  | num q => exact hnum q
  | dt t => exact hts t

/-- A non-null result of `pd.to_datetime(…, errors="coerce")` is a parsed
datetime. -/
theorem toDatetimeVal_not_null {F : PdFns} {v : Val}
    (h : (toDatetimeVal F v).isNull = false) :
    ∃ t, toDatetimeVal F v = .dt t := by
  cases v with
  | null => simp [toDatetimeVal, Val.isNull] at h
  | dt t => exact ⟨t, rfl⟩
  | str s =>
    simp only [toDatetimeVal] at h ⊢
    cases hp : F.parseTS s with
    | some t => exact ⟨t, rfl⟩
    | none => rw [hp] at h; simp [Val.isNull] at h
  | num q =>
    simp only [toDatetimeVal] at h ⊢
    cases hp : F.tsOfNum q with
    | some t => exact ⟨t, rfl⟩
    | none => rw [hp] at h; simp [Val.isNull] at h

/-- A non-null result of `pd.to_numeric(…, errors="coerce")` is numeric. -/
theorem toNumericVal_not_null {F : PdFns} {v : Val}
    (h : (toNumericVal F v).isNull = false) :
    ∃ q, toNumericVal F v = .num q := by
  cases v with
  | null => simp [toNumericVal, Val.isNull] at h
  | num q => exact ⟨q, rfl⟩
  | dt t => exact ⟨t, rfl⟩
  | str s =>
    simp only [toNumericVal] at h ⊢
    cases hp : F.parseNum s with
    | some q => exact ⟨q, rfl⟩
    | none => rw [hp] at h; simp [Val.isNull] at h

/-- `fillna` on `category` does not disturb the cleaned shape (which never
mentions `category`). -/
theorem rowCleaned_fillCategory {hc : Bool} {r : Row} (h : RowCleaned r) :
    RowCleaned (fillCategory hc r) := by
  unfold fillCategory
  split
  · exact h
  · exact h

/-- `fillna` on `category` leaves the supplier cell alone. -/
theorem fillCategory_supplier (hc : Bool) (r : Row) :
    (fillCategory hc r).supplier = r.supplier := by
  unfold fillCategory
  split
  · rfl
  · rfl

/-- The row pipeline of `clean_data`, spelled out. -/
theorem clean_data_rows (F : PdFns) (b : Batch) :
    (clean_data F b).rows =
      (((b.rows.map (stripRow b.hasCategory
        (colObjecty (·.timestamp) b.rows) (colObjecty (·.supplier) b.rows)
        (colObjecty (·.product_id) b.rows) (colObjecty (·.price) b.rows)
        (colObjecty (·.currency) b.rows)
        (colObjecty (·.category) b.rows))).map (fixRow F)).filter
          requiredPresent).map (fillCategory b.hasCategory) := rfl

/-- `clean_data` never changes whether the `category` column exists. -/
theorem clean_data_hasCategory (F : PdFns) (b : Batch) :
    (clean_data F b).hasCategory = b.hasCategory := rfl

/-- Every string cell among the stripped `product_id`s is stripped. -/
theorem stripRow_product_id_stripped {b : Batch} {r₀ : Row} (hr₀ : r₀ ∈ b.rows)
    {s : Chars}
    (hs : (stripRow b.hasCategory
      (colObjecty (·.timestamp) b.rows) (colObjecty (·.supplier) b.rows)
      (colObjecty (·.product_id) b.rows) (colObjecty (·.price) b.rows)
      (colObjecty (·.currency) b.rows) (colObjecty (·.category) b.rows)
      r₀).product_id = .str s) :
    stripChars s = s := by
  simp only [stripRow] at hs
  cases ho : colObjecty (·.product_id) b.rows with
  | true =>
    rw [ho] at hs
    simp only [if_true] at hs
    exact stripVal_str_stripped hs
  | false =>
    rw [ho] at hs
    simp only [Bool.false_eq_true, if_false] at hs
    have : colObjecty (·.product_id) b.rows = true :=
      colObjecty_of_isStr hr₀ (by rw [hs]; rfl)
    rw [ho] at this
    exact absurd this (by simp)

/-- Every string cell among the stripped `currency`s is stripped. -/
theorem stripRow_currency_stripped {b : Batch} {r₀ : Row} (hr₀ : r₀ ∈ b.rows)
    {s : Chars}
    (hs : (stripRow b.hasCategory
      (colObjecty (·.timestamp) b.rows) (colObjecty (·.supplier) b.rows)
      (colObjecty (·.product_id) b.rows) (colObjecty (·.price) b.rows)
      (colObjecty (·.currency) b.rows) (colObjecty (·.category) b.rows)
      r₀).currency = .str s) :
    stripChars s = s := by
  simp only [stripRow] at hs
  cases ho : colObjecty (·.currency) b.rows with
  | true =>
    rw [ho] at hs
    simp only [if_true] at hs
    exact stripVal_str_stripped hs
  | false =>
    rw [ho] at hs
    simp only [Bool.false_eq_true, if_false] at hs
    have : colObjecty (·.currency) b.rows = true :=
      colObjecty_of_isStr hr₀ (by rw [hs]; rfl)
    rw [ho] at this
    exact absurd this (by simp)

/-- Every string cell among the stripped suppliers is stripped. -/
theorem stripRow_supplier_stripped {b : Batch} {r₀ : Row} (hr₀ : r₀ ∈ b.rows)
    {s : Chars}
    (hs : (stripRow b.hasCategory
      (colObjecty (·.timestamp) b.rows) (colObjecty (·.supplier) b.rows)
      (colObjecty (·.product_id) b.rows) (colObjecty (·.price) b.rows)
      (colObjecty (·.currency) b.rows) (colObjecty (·.category) b.rows)
      r₀).supplier = .str s) :
    stripChars s = s := by
  simp only [stripRow] at hs
  cases ho : colObjecty (·.supplier) b.rows with
  | true =>
    rw [ho] at hs
    simp only [if_true] at hs
    exact stripVal_str_stripped hs
  | false =>
    rw [ho] at hs
    simp only [Bool.false_eq_true, if_false] at hs
    have : colObjecty (·.supplier) b.rows = true :=
      colObjecty_of_isStr hr₀ (by rw [hs]; rfl)
    rw [ho] at this
    exact absurd this (by simp)

/-- Lemma A for the amended C9: `clean_data` always outputs a batch in
cleaned shape, provided the pandas printers emit whitespace-free strings. -/
theorem clean_data_cleaned (F : PdFns)
    (hnum : ∀ q, stripChars (F.showNum q) = F.showNum q)
    (htsp : ∀ t, stripChars (F.showTs t) = F.showTs t)
    (b : Batch) : BatchCleaned (clean_data F b) := by
  constructor
  · intro r hr
    rw [clean_data_rows] at hr
    obtain ⟨r₂, hr₂, rfl⟩ := List.mem_map.mp hr
    obtain ⟨hr₂m, hreq⟩ := List.mem_filter.mp hr₂
    obtain ⟨r₁, hr₁m, rfl⟩ := List.mem_map.mp hr₂m
    obtain ⟨r₀, hr₀, rfl⟩ := List.mem_map.mp hr₁m
    apply rowCleaned_fillCategory
    simp only [requiredPresent, Bool.and_eq_true, Bool.not_eq_true'] at hreq
    obtain ⟨⟨⟨⟨hts', hsup'⟩, hpid'⟩, hpr'⟩, hcur'⟩ := hreq
    refine ⟨toDatetimeVal_not_null hts', toNumericVal_not_null hpr', ?_, ?_,
      hsup', ?_⟩
    · have hx : stripChars (astypeStr F ((stripRow b.hasCategory
          (colObjecty (·.timestamp) b.rows) (colObjecty (·.supplier) b.rows)
          (colObjecty (·.product_id) b.rows) (colObjecty (·.price) b.rows)
          (colObjecty (·.currency) b.rows) (colObjecty (·.category) b.rows)
          r₀).product_id)) = astypeStr F _ :=
        stripChars_astypeStr hnum htsp
          (fun s hs => stripRow_product_id_stripped hr₀ hs)
      exact ⟨upperChars (astypeStr F _), rfl,
        by rw [stripChars_upperChars, hx], upperChars_idem _⟩
    · have hx : stripChars (astypeStr F ((stripRow b.hasCategory
          (colObjecty (·.timestamp) b.rows) (colObjecty (·.supplier) b.rows)
          (colObjecty (·.product_id) b.rows) (colObjecty (·.price) b.rows)
          (colObjecty (·.currency) b.rows) (colObjecty (·.category) b.rows)
          r₀).currency)) = astypeStr F _ :=
        stripChars_astypeStr hnum htsp
          (fun s hs => stripRow_currency_stripped hr₀ hs)
      exact ⟨upperChars (astypeStr F _), rfl,
        by rw [stripChars_upperChars, hx], upperChars_idem _⟩
    · exact fun s hs => stripRow_supplier_stripped hr₀ hs
  · cases ho : colObjecty (·.supplier) b.rows with
    | true =>
      left
      intro r hr
      rw [clean_data_rows] at hr
      obtain ⟨r₂, hr₂, rfl⟩ := List.mem_map.mp hr
      obtain ⟨hr₂m, hreq⟩ := List.mem_filter.mp hr₂
      obtain ⟨r₁, hr₁m, rfl⟩ := List.mem_map.mp hr₂m
      obtain ⟨r₀, hr₀, rfl⟩ := List.mem_map.mp hr₁m
      simp only [requiredPresent, Bool.and_eq_true, Bool.not_eq_true'] at hreq
      obtain ⟨⟨⟨⟨hts', hsup'⟩, hpid'⟩, hpr'⟩, hcur'⟩ := hreq
      rw [fillCategory_supplier]
      show ((stripRow b.hasCategory
        (colObjecty (·.timestamp) b.rows) (colObjecty (·.supplier) b.rows)
        (colObjecty (·.product_id) b.rows) (colObjecty (·.price) b.rows)
        (colObjecty (·.currency) b.rows) (colObjecty (·.category) b.rows)
        r₀).supplier).isStr = true
      simp only [stripRow, ho, if_true]
      have hsup'' : ((stripRow b.hasCategory
        (colObjecty (·.timestamp) b.rows) (colObjecty (·.supplier) b.rows)
        (colObjecty (·.product_id) b.rows) (colObjecty (·.price) b.rows)
        (colObjecty (·.currency) b.rows) (colObjecty (·.category) b.rows)
        r₀).supplier).isNull = false := hsup'
      simp only [stripRow, ho, if_true] at hsup''
      cases hv : r₀.supplier with
      | str s => simp [stripVal, Val.isStr]
      | null => rw [hv] at hsup''; simp [stripVal, Val.isNull] at hsup''
      | num q => rw [hv] at hsup''; simp [stripVal, Val.isNull] at hsup''
      | dt t => rw [hv] at hsup''; simp [stripVal, Val.isNull] at hsup''
    | false =>
      right
      intro r hr
      rw [clean_data_rows] at hr
      obtain ⟨r₂, hr₂, rfl⟩ := List.mem_map.mp hr
      obtain ⟨hr₂m, hreq⟩ := List.mem_filter.mp hr₂
      obtain ⟨r₁, hr₁m, rfl⟩ := List.mem_map.mp hr₂m
      obtain ⟨r₀, hr₀, rfl⟩ := List.mem_map.mp hr₁m
      rw [fillCategory_supplier]
      show ((stripRow b.hasCategory
        (colObjecty (·.timestamp) b.rows) (colObjecty (·.supplier) b.rows)
        (colObjecty (·.product_id) b.rows) (colObjecty (·.price) b.rows)
        (colObjecty (·.currency) b.rows) (colObjecty (·.category) b.rows)
        r₀).supplier).isStr = false
      simp only [stripRow, ho, Bool.false_eq_true, if_false]
      cases hv : r₀.supplier with
      | str s =>
        have : colObjecty (·.supplier) b.rows = true :=
          colObjecty_of_isStr hr₀ (by rw [hv]; rfl)
        rw [ho] at this
        exact absurd this (by simp)
      | null => simp [Val.isStr]
      | num q => simp [Val.isStr]
      | dt t => simp [Val.isStr]

/-- Lemma B for the amended C9, stage 1: on a cleaned batch without a
`category` column, `strip_string_columns` is the identity. -/
theorem strip_string_columns_fixes (b : Batch) (hb : BatchCleaned b)
    (hc : b.hasCategory = false) : strip_string_columns b = b := by
  obtain ⟨hrows, hdich⟩ := hb
  have hoTs : colObjecty (·.timestamp) b.rows = false := by
    rw [colObjecty, List.any_eq_false]
    intro r hr
    obtain ⟨⟨t, ht⟩, -⟩ := hrows r hr
    simp [ht, Val.isStr]
  have hoPr : colObjecty (·.price) b.rows = false := by
    rw [colObjecty, List.any_eq_false]
    intro r hr
    obtain ⟨-, ⟨q, hq⟩, -⟩ := hrows r hr
    simp [hq, Val.isStr]
  have hmap : b.rows.map (stripRow b.hasCategory
      (colObjecty (·.timestamp) b.rows) (colObjecty (·.supplier) b.rows)
      (colObjecty (·.product_id) b.rows) (colObjecty (·.price) b.rows)
      (colObjecty (·.currency) b.rows) (colObjecty (·.category) b.rows)) =
      b.rows := by
    have hrow : ∀ r ∈ b.rows, stripRow b.hasCategory
        (colObjecty (·.timestamp) b.rows) (colObjecty (·.supplier) b.rows)
        (colObjecty (·.product_id) b.rows) (colObjecty (·.price) b.rows)
        (colObjecty (·.currency) b.rows) (colObjecty (·.category) b.rows)
        r = id r := by
      intro r hr
      obtain ⟨⟨t, ht⟩, ⟨q, hq⟩, ⟨sp, hsp, hsps, hspu⟩, ⟨sc, hsc, hscs, hscu⟩,
        hnn, hss⟩ := hrows r hr
      have hpid : (if colObjecty (·.product_id) b.rows = true then
          stripVal r.product_id else r.product_id) = r.product_id := by
        cases ho : colObjecty (·.product_id) b.rows with
        | false => simp
        | true =>
          simp only [if_true]
          rw [hsp]
          simp [stripVal, hsps]
      have hcur : (if colObjecty (·.currency) b.rows = true then
          stripVal r.currency else r.currency) = r.currency := by
        cases ho : colObjecty (·.currency) b.rows with
        | false => simp
        | true =>
          simp only [if_true]
          rw [hsc]
          simp [stripVal, hscs]
      have hsupf : (if colObjecty (·.supplier) b.rows = true then
          stripVal r.supplier else r.supplier) = r.supplier := by
        cases ho : colObjecty (·.supplier) b.rows with
        | false => simp
        | true =>
          simp only [if_true]
          rcases hdich with hall | hnone
          · have hstr := hall r hr
            cases hv : r.supplier with
            | str s => simp [stripVal, hss s hv]
            | null => rw [hv] at hstr; simp [Val.isStr] at hstr
            | num q' => rw [hv] at hstr; simp [Val.isStr] at hstr
            | dt t' => rw [hv] at hstr; simp [Val.isStr] at hstr
          · obtain ⟨r', hr', hstr'⟩ := List.any_eq_true.mp ho
            have := hnone r' hr'
            rw [this] at hstr'
            exact absurd hstr' (by simp)
      unfold stripRow
      rw [hoTs, hoPr, hc]
      simp only [Bool.false_eq_true, if_false, Bool.false_and, id]
      rw [hpid, hcur, hsupf]
    rw [List.map_congr_left hrow, List.map_id]
  calc strip_string_columns b = { b with rows := b.rows } := by
        unfold strip_string_columns
        rw [hmap]
    _ = b := rfl

/-- Lemma B for the amended C9, stage 2: on a cleaned batch,
`fix_data_types` is the identity. -/
theorem fix_data_types_fixes (F : PdFns) (b : Batch) (hb : BatchCleaned b) :
    fix_data_types F b = b := by
  obtain ⟨hrows, -⟩ := hb
  have hmap : b.rows.map (fixRow F) = b.rows := by
    have hrow : ∀ r ∈ b.rows, fixRow F r = id r := by
      intro r hr
      obtain ⟨⟨t, ht⟩, ⟨q, hq⟩, ⟨sp, hsp, hsps, hspu⟩, ⟨sc, hsc, hscs, hscu⟩,
        hnn, hss⟩ := hrows r hr
      have h1 : toDatetimeVal F r.timestamp = r.timestamp := by
        rw [ht]
        rfl
      have h2 : toNumericVal F r.price = r.price := by
        rw [hq]
        rfl
      have h3 : Val.str (upperChars (astypeStr F r.product_id)) =
          r.product_id := by
        rw [hsp]
        simp [astypeStr, hspu]
      have h4 : Val.str (upperChars (astypeStr F r.currency)) = r.currency := by
        rw [hsc]
        simp [astypeStr, hscu]
      unfold fixRow
      rw [h1, h2, h3, h4]
      rfl
    rw [List.map_congr_left hrow, List.map_id]
  calc fix_data_types F b = { b with rows := b.rows } := by
        unfold fix_data_types
        rw [hmap]
    _ = b := rfl

/-- Lemma B for the amended C9, stage 3: on a cleaned batch without a
`category` column, `handle_missing_values` is the identity. -/
theorem handle_missing_values_fixes (b : Batch) (hb : BatchCleaned b)
    (hc : b.hasCategory = false) : handle_missing_values b = b := by
  obtain ⟨hrows, -⟩ := hb
  have hfilter : b.rows.filter requiredPresent = b.rows := by
    refine List.filter_eq_self.mpr (fun r hr => ?_)
    obtain ⟨⟨t, ht⟩, ⟨q, hq⟩, ⟨sp, hsp, -, -⟩, ⟨sc, hsc, -, -⟩, hnn, -⟩ :=
      hrows r hr
    have h1 : (Val.dt t).isNull = false := rfl
    have h2 : (Val.num q).isNull = false := rfl
    have h3 : (Val.str sp).isNull = false := rfl
    have h4 : (Val.str sc).isNull = false := rfl
    simp [requiredPresent, ht, hq, hsp, hsc, h1, h2, h3, h4, hnn]
  have hmap : b.rows.map (fillCategory b.hasCategory) = b.rows := by
    have hrow : ∀ r ∈ b.rows, fillCategory b.hasCategory r = id r := by
      intro r _
      simp [fillCategory, hc]
    rw [List.map_congr_left hrow, List.map_id]
  calc handle_missing_values b = { b with rows := b.rows } := by
        unfold handle_missing_values
        rw [hfilter, hmap]
    _ = b := rfl

/-- Lemma B for the amended C9: `clean_data` is the identity on a cleaned
batch without a `category` column. -/
theorem clean_data_fixes (F : PdFns) (b : Batch) (hb : BatchCleaned b)
    (hc : b.hasCategory = false) : clean_data F b = b := by
  unfold clean_data standardize_columns
  rw [strip_string_columns_fixes b hb hc, fix_data_types_fixes F b hb,
    handle_missing_values_fixes b hb hc]

/-- C9 (amended): `clean_data` is idempotent on every batch without a
`category` column, for any parsing behaviour whose float/datetime printers
emit whitespace-free strings (Python's do).  The unamended claim fails only
through the optional `category` column (see the counterexample): a first
pass can fill missing categories with the string `"Unknown"` inside an
otherwise numeric column, which flips the column to `object` dtype and makes
the second pass null out its numeric entries. -/
theorem clean_data_idempotent_without_category (F : PdFns)
    (hnum : ∀ q, stripChars (F.showNum q) = F.showNum q)
    (htsp : ∀ t, stripChars (F.showTs t) = F.showTs t)
    (b : Batch) (hcat : b.hasCategory = false) :
    clean_data F (clean_data F b) = clean_data F b :=
  clean_data_fixes F _ (clean_data_cleaned F hnum htsp b)
    (by rw [clean_data_hasCategory]; exact hcat)

/-- A one-row category-free batch for the idempotence witness. -/
def c9NoCat : Batch := { rows := [c9Row1], hasCategory := false }

/-- Witness for `clean_data_idempotent_without_category` at a concrete
batch and concrete pandas primitives. -/
theorem clean_data_idempotent_without_category_witness :
    clean_data cFns (clean_data cFns c9NoCat) = clean_data cFns c9NoCat :=
  clean_data_idempotent_without_category cFns (fun _ => rfl) (fun _ => rfl)
    c9NoCat rfl

/-- Witness for `query_latest_prices_max_per_pair` at the concrete two-row
state. -/
theorem query_latest_prices_max_per_pair_witness :
    (∃ r ∈ [c2RowA, c2RowB], r.supplier = "s" ∧ r.product_id = "p") ∧
    (∃ r ∈ query_latest_prices [c2RowA, c2RowB], r.supplier = "s" ∧
        r.product_id = "p" ∧
        r.timestamp = maxTimestamp [c2RowA, c2RowB] "s" "p") :=
  ⟨⟨c2RowA, by simp, rfl, rfl⟩,
    (query_latest_prices_max_per_pair [c2RowA, c2RowB] "s" "p"
      ⟨c2RowA, by simp, rfl, rfl⟩).1⟩

end MarketData
